import Mathlib

/-!
Verification of `systemd_gui_dashboard.py` (systemd-gui-dashboard).

This file gives a shallow embedding of the program's pure logic:

* `run_command` — the subprocess wrapper (`run_command` in the source), with the
  platform behaviour of `subprocess.run` modelled by an oracle
  `exec : List String → ProcOutcome` that either returns a completed process
  (exit code, stdout, stderr) or raises `FileNotFoundError` / another exception.
* Python string primitives used by the parser: `str.split()` (whitespace split,
  empty tokens dropped), `str.strip()` / `str.rstrip()`, and `str.splitlines()`
  (modelled for newline-separated text, the line format systemd emits).
* Python `dict` with insertion-order semantics, as an association list
  (`dictInsert` replaces the value in place for an existing key, otherwise
  appends; `dictGet` is `dict.get`).
* `get_services_list` — parsing of `systemctl list-unit-files` and
  `systemctl list-units` output and the merge of the two into service records.
* `service_state_color` — the row colour classification (a `QColor` is modelled
  by its colour-name string).
* `update_buttons_enabled_state` — the derived button availability, as a pure
  function of (selection present, active state, enabled state) returning the
  `setEnabled` value of each button.
-/

namespace SystemdDash

/-- Outcome of one `subprocess.run` invocation: normal completion with
(returncode, stdout, stderr), a `FileNotFoundError` with message, or any
other exception with message. -/
inductive ProcOutcome where
  | ok (code : Int) (stdout stderr : String)
  | fileNotFound (msg : String)
  | otherError (msg : String)
deriving DecidableEq

/-- The command actually dispatched by `run_command`: with `require_root`,
`full_cmd = ["pkexec", "/usr/bin/systemctl"] + command[1:]` (source lines
58–61), else the command unchanged. -/
def fullCmd (command : List String) (require_root : Bool) : List String :=
  if require_root then "pkexec" :: "/usr/bin/systemctl" :: command.drop 1
  else command

/-- `run_command` (source lines 51–75): dispatch `fullCmd`, return the
process triple on completion, and convert `FileNotFoundError` or any other
exception into an exit-code-1 triple with a descriptive stderr. -/
def run_command (command : List String) (require_root : Bool)
    (exec : List String → ProcOutcome) : Int × String × String :=
  match exec (fullCmd command require_root) with
  | ProcOutcome.ok code out err => (code, out, err)
  | ProcOutcome.fileNotFound msg => (1, "", "Command not found: " ++ msg)
  | ProcOutcome.otherError msg => (1, "", "Unexpected error: " ++ msg)

/-- Python's whitespace set for `str.split()` / `str.strip()` (restricted to
the ASCII whitespace characters; systemctl output contains no others). -/
def isPySpace (c : Char) : Bool :=
  c == ' ' || c == '\t' || c == '\n' || c == '\r' || c == '\x0b' || c == '\x0c'

/-- Worker for `str.split()` with no separator: walk the characters keeping
the (reversed) current token in `acc`; whitespace ends a token, and empty
tokens are never produced. -/
def splitWsGo : List Char → List Char → List String
  | acc, [] => if acc = [] then [] else [String.mk acc.reverse]
  | acc, c :: cs =>
    if isPySpace c then
      if acc = [] then splitWsGo [] cs
      else String.mk acc.reverse :: splitWsGo [] cs
    else splitWsGo (c :: acc) cs

/-- Python `str.split()` with no separator: split on runs of whitespace,
discarding empty strings. -/
def pySplit (s : String) : List String := splitWsGo [] s.toList

/-- Remove trailing whitespace from a character list. -/
def rstripList (l : List Char) : List Char := (l.reverse.dropWhile isPySpace).reverse

/-- Python `str.rstrip()`. -/
def pyRstrip (s : String) : String := String.mk (rstripList s.toList)

/-- Python `str.strip()`. -/
def pyStrip (s : String) : String := String.mk (rstripList (s.toList.dropWhile isPySpace))

/-- Worker for `str.splitlines()`: cut at every newline character. -/
def splitLinesGo : List Char → List Char → List String
  | acc, [] => if acc = [] then [] else [String.mk acc.reverse]
  | acc, c :: cs =>
    if c = '\n' then String.mk acc.reverse :: splitLinesGo [] cs
    else splitLinesGo (c :: acc) cs

/-- Python `str.splitlines()`, modelled for newline-separated text (the
line format of systemctl output): a trailing newline does not produce an
extra empty line. -/
def pySplitlines (s : String) : List String := splitLinesGo [] s.toList

/-- Keys of a Python dict modelled as an association list, in insertion
order. -/
def dictKeys {α : Type} (m : List (String × α)) : List String :=
  m.map (fun p => p.1)

/-- Python `key in dict`. -/
def dictMem {α : Type} (m : List (String × α)) (k : String) : Bool :=
  m.any (fun p => p.1 == k)

/-- Python `dict[key] = value` with insertion-order semantics: an existing
key keeps its position and gets the new value, a new key is appended. -/
def dictInsert {α : Type} (m : List (String × α)) (k : String) (v : α) :
    List (String × α) :=
  if dictMem m k then m.map (fun p => if p.1 = k then (k, v) else p)
  else m ++ [(k, v)]

/-- Python `dict.get(key)` (`none` when absent). -/
def dictGet {α : Type} (m : List (String × α)) (k : String) : Option α :=
  (m.find? (fun p => p.1 == k)).map (fun p => p.2)

/-- One row of `get_services_list`'s result (the dict with keys
unit/load/active/sub/description/enabled, source lines 152–159). -/
structure ServiceRecord where
  unit : String
  load : String
  active : String
  sub : String
  description : String
  enabled : String
deriving DecidableEq

/-- Processing of one `list-unit-files` output line (source lines 99–110):
strip, skip blank lines and lines with fewer than two tokens, else record
`parts[1]` under key `parts[0]`. -/
def enabStep (m : List (String × String)) (line : String) :
    List (String × String) :=
  let l := pyStrip line
  if l = "" then m
  else
    match pySplit l with
    | u :: s :: _ => dictInsert m u s
    | _ => m

/-- The enablement mapping built from the `list-unit-files` output
(source lines 93–110). -/
def buildEnabledMap (out : String) : List (String × String) :=
  (pySplitlines out).foldl enabStep []

/-- Drop a leading "●" failure-bullet token (source lines 137–138). -/
def stripBullet (parts : List String) : List String :=
  if parts.head? = some "●" then parts.tail else parts

/-- Field assignment for a live-units line after tokenisation (source lines
137–148): drop a leading bullet token, require at least five tokens, map
them positionally to unit/load/active/sub and join the rest with single
spaces as the description. -/
def parseTokens (parts : List String) :
    Option (String × String × String × String × String) :=
  match stripBullet parts with
  | u :: lo :: a :: su :: d :: ds =>
      some (u, lo, a, su, String.intercalate " " (d :: ds))
  | _ => none

/-- Parsing of one `list-units` output line (source lines 126–148):
`rstrip`, skip blank lines, whitespace-split, then `parseTokens`. -/
def parseUnitLine (line : String) :
    Option (String × String × String × String × String) :=
  let l := pyRstrip line
  if l = "" then none else parseTokens (pySplit l)

/-- Processing of one `list-units` output line into the `runtime_services`
dict (source lines 126–159): skipped lines leave the dict unchanged, parsed
lines insert a record keyed by the unit name with the enablement state
looked up in `emap`, defaulting to "?". -/
def runtimeStep (emap : List (String × String))
    (m : List (String × ServiceRecord)) (line : String) :
    List (String × ServiceRecord) :=
  match parseUnitLine line with
  | none => m
  | some (u, lo, a, su, d) =>
      dictInsert m u
        { unit := u, load := lo, active := a, sub := su, description := d,
          enabled := (dictGet emap u).getD "?" }

/-- The `runtime_services` dict built from the `list-units` output
(source lines 124–159). -/
def buildRuntimeServices (emap : List (String × String)) (out : String) :
    List (String × ServiceRecord) :=
  (pySplitlines out).foldl (runtimeStep emap) []

/-- The synthesized record for a unit present only in the enablement
mapping (source lines 168–177). -/
def placeholderRec (p : String × String) : ServiceRecord :=
  { unit := p.1, load := "n/a", active := "inactive", sub := "dead",
    description := "Not loaded (available to enable/start)", enabled := p.2 }

/-- The merge of live units and install-only units (source lines 161–179):
runtime records in insertion order, then a placeholder for every enablement
entry whose unit is not a runtime key. -/
def mergeServices (emap : List (String × String)) (out : String) :
    List ServiceRecord :=
  let rt := buildRuntimeServices emap out
  rt.map (fun p => p.2) ++
    (emap.filter (fun p => !dictMem rt p.1)).map placeholderRec

/-- The unit names appearing (on parseable lines) in a live-units output. -/
def liveUnits (out : String) : List String :=
  (pySplitlines out).filterMap (fun l => (parseUnitLine l).map (fun t => t.1))

/-- The exact `list-unit-files` invocation (source lines 94–97). -/
def listUnitFilesCmd : List String :=
  ["systemctl", "list-unit-files", "--type=service", "--no-legend", "--no-pager"]

/-- The exact `list-units` invocation (source lines 116–119). -/
def listUnitsCmd : List String :=
  ["systemctl", "list-units", "--type=service", "--all", "--no-legend", "--no-pager"]

/-- `get_services_list` (source lines 78–179): build the enablement mapping
(empty on a failed or non-zero `list-unit-files` query), run the mandatory
`list-units` query, and merge. The `RuntimeError` raised on a non-zero
`list-units` exit, whose message is "Failed to list services:" followed by
the captured stderr, is modelled as `Except.error`. -/
def get_services_list (exec : List String → ProcOutcome) :
    Except String (List ServiceRecord) :=
  let r1 := run_command listUnitFilesCmd false exec
  let emap := if r1.1 = 0 then buildEnabledMap r1.2.1 else []
  let r2 := run_command listUnitsCmd false exec
  if r2.1 ≠ 0 then Except.error ("Failed to list services:" ++ r2.2.2)
  else Except.ok (mergeServices emap r2.2.1)

/-- `service_state_color` (source lines 196–205), with a `QColor` modelled by
its colour-name string. -/
def service_state_color (active_state enabled_state : String) : String :=
  if enabled_state = "disabled" ∨ enabled_state = "masked" then "black"
  else if active_state = "active" then "green"
  else "red"

/-- The `setEnabled` state of each button after
`update_buttons_enabled_state` runs. -/
structure ButtonStates where
  start : Bool
  stop : Bool
  restart : Bool
  reload : Bool
  enable : Bool
  disable : Bool
  mask : Bool
  unmask : Bool
  status : Bool
deriving DecidableEq

/-- `ServiceManagerWindow.update_buttons_enabled_state` (source lines
503–565) as a pure function of the selection state and the selected row's
`active` / `enabled` strings: first every button is set to `has_selection`,
then, if a selection exists, the start/stop/restart/reload group is refined
by `active_state` and the enable/disable/mask/unmask group by
`enabled_state`. -/
def update_buttons_enabled_state (has_selection : Bool)
    (active_state enabled_state : String) : ButtonStates :=
  let base : ButtonStates :=
    ⟨has_selection, has_selection, has_selection, has_selection, has_selection,
     has_selection, has_selection, has_selection, has_selection⟩
  if has_selection = false then base
  else
    let b1 :=
      if active_state = "active" then
        { base with start := false, stop := true, restart := true, reload := true }
      else
        { base with start := true, stop := false, restart := false, reload := true }
    if enabled_state = "enabled" then
      { b1 with enable := false, disable := true, mask := true, unmask := false }
    else if enabled_state = "disabled" then
      { b1 with enable := true, disable := false, mask := true, unmask := false }
    else if enabled_state = "masked" then
      { b1 with enable := false, disable := false, mask := false, unmask := true }
    else
      { b1 with enable := true, disable := true, mask := true, unmask := true }

/-- Claim C3: `service_state_color` is a pure function of (active, enabled):
"disabled"/"masked" classify neutral (black) regardless of activity, else
"active" classifies healthy (green), else attention (red); in particular
("active","enabled") is green, ("inactive","disabled") black,
("failed","masked") black, ("failed","static") red. -/
theorem service_state_color_classification (a e : String) :
    ((e = "disabled" ∨ e = "masked") → service_state_color a e = "black") ∧
    (¬(e = "disabled" ∨ e = "masked") → a = "active" →
      service_state_color a e = "green") ∧
    (¬(e = "disabled" ∨ e = "masked") → a ≠ "active" →
      service_state_color a e = "red") ∧
    service_state_color "active" "enabled" = "green" ∧
    service_state_color "inactive" "disabled" = "black" ∧
    service_state_color "failed" "masked" = "black" ∧
    service_state_color "failed" "static" = "red" := by
  refine ⟨?_, ?_, ?_, ?_, ?_, ?_, ?_⟩
  · intro h; simp [service_state_color, h]
  · intro h ha; simp [service_state_color, h, ha]
  · intro h ha; simp [service_state_color, h, ha]
  · rfl
  · rfl
  · rfl
  · rfl

theorem service_state_color_classification_spot :
    service_state_color "activating" "masked" = "black" :=
  (service_state_color_classification "activating" "masked").1 (Or.inr rfl)

/-- Claim C4: with no selection every button is disabled; with a selection,
Start is enabled iff `active` is not "active", Stop and Restart iff it is,
Reload is always enabled, and the enable/disable/mask/unmask group follows
the lookup table keyed by `enabled` ("enabled" ↦ (off,on,on,off),
"disabled" ↦ (on,off,on,off), "masked" ↦ (off,off,off,on), anything
else ↦ (on,on,on,on)). -/
theorem update_buttons_table (a e : String) :
    update_buttons_enabled_state false a e =
      ⟨false, false, false, false, false, false, false, false, false⟩ ∧
    ((update_buttons_enabled_state true a e).start = true ↔ a ≠ "active") ∧
    ((update_buttons_enabled_state true a e).stop = true ↔ a = "active") ∧
    ((update_buttons_enabled_state true a e).restart = true ↔ a = "active") ∧
    (update_buttons_enabled_state true a e).reload = true ∧
    (e = "enabled" →
      ((update_buttons_enabled_state true a e).enable,
       (update_buttons_enabled_state true a e).disable,
       (update_buttons_enabled_state true a e).mask,
       (update_buttons_enabled_state true a e).unmask) =
      (false, true, true, false)) ∧
    (e = "disabled" →
      ((update_buttons_enabled_state true a e).enable,
       (update_buttons_enabled_state true a e).disable,
       (update_buttons_enabled_state true a e).mask,
       (update_buttons_enabled_state true a e).unmask) =
      (true, false, true, false)) ∧
    (e = "masked" →
      ((update_buttons_enabled_state true a e).enable,
       (update_buttons_enabled_state true a e).disable,
       (update_buttons_enabled_state true a e).mask,
       (update_buttons_enabled_state true a e).unmask) =
      (false, false, false, true)) ∧
    (e ≠ "enabled" → e ≠ "disabled" → e ≠ "masked" →
      ((update_buttons_enabled_state true a e).enable,
       (update_buttons_enabled_state true a e).disable,
       (update_buttons_enabled_state true a e).mask,
       (update_buttons_enabled_state true a e).unmask) =
      (true, true, true, true)) := by
  by_cases ha : a = "active" <;>
    by_cases he1 : e = "enabled" <;>
      by_cases he2 : e = "disabled" <;>
        by_cases he3 : e = "masked" <;>
          simp_all [update_buttons_enabled_state]

theorem update_buttons_table_spot :
    ((update_buttons_enabled_state true "inactive" "static").enable,
     (update_buttons_enabled_state true "inactive" "static").disable,
     (update_buttons_enabled_state true "inactive" "static").mask,
     (update_buttons_enabled_state true "inactive" "static").unmask) =
    (true, true, true, true) :=
  (update_buttons_table "inactive" "static").2.2.2.2.2.2.2.2
    (by decide) (by decide) (by decide)

/-- Claim C5: with the elevation flag set, `run_command` dispatches
`["pkexec", "/usr/bin/systemctl"]` followed by the original command's
arguments past the first; elevating is the same as running that rewritten
command unelevated. -/
theorem run_command_elevation (command : List String)
    (exec : List String → ProcOutcome) :
    fullCmd command true = "pkexec" :: "/usr/bin/systemctl" :: command.drop 1 ∧
    run_command command true exec = run_command (fullCmd command true) false exec :=
  ⟨rfl, rfl⟩

/-- Claim C6: `run_command` never propagates a raw platform exception: a
missing executable yields exit code 1, empty stdout and a descriptive
stderr; any other invocation failure yields the same shape with its own
descriptive message; normal completion yields the process triple. -/
theorem run_command_total (command : List String) (require_root : Bool)
    (exec : List String → ProcOutcome) :
    (∀ msg, exec (fullCmd command require_root) = ProcOutcome.fileNotFound msg →
      run_command command require_root exec =
        (1, "", "Command not found: " ++ msg)) ∧
    (∀ msg, exec (fullCmd command require_root) = ProcOutcome.otherError msg →
      run_command command require_root exec =
        (1, "", "Unexpected error: " ++ msg) ∧
        (run_command command require_root exec).1 ≠ 0) ∧
    (∀ code out err, exec (fullCmd command require_root) = ProcOutcome.ok code out err →
      run_command command require_root exec = (code, out, err)) := by
  refine ⟨?_, ?_, ?_⟩
  · intro msg h; simp [run_command, h]
  · intro msg h; simp [run_command, h]
  · intro code out err h; simp [run_command, h]

theorem run_command_total_spot :
    run_command ["systemctl", "status"] false
        (fun _ => ProcOutcome.fileNotFound "systemctl") =
      (1, "", "Command not found: systemctl") :=
  (run_command_total ["systemctl", "status"] false
    (fun _ => ProcOutcome.fileNotFound "systemctl")).1 "systemctl" rfl

theorem splitWsGo_all_space (ws : List Char) (hws : ∀ c ∈ ws, isPySpace c = true) :
    ∀ acc, splitWsGo acc ws = if acc = [] then [] else [String.mk acc.reverse] := by
  induction ws with
  | nil => intro acc; rfl
  | cons c cs ih =>
    intro acc
    have hc : isPySpace c = true := hws c (List.mem_cons_self c cs)
    have hcs : ∀ x ∈ cs, isPySpace x = true :=
      fun x hx => hws x (List.mem_cons_of_mem c hx)
    by_cases hacc : acc = []
    · simp [splitWsGo, hc, hacc, ih hcs]
    · simp [splitWsGo, hc, hacc, ih hcs]

theorem splitWsGo_append_spaces (ws : List Char)
    (hws : ∀ c ∈ ws, isPySpace c = true) :
    ∀ (l acc : List Char), splitWsGo acc (l ++ ws) = splitWsGo acc l := by
  intro l
  induction l with
  | nil =>
    intro acc
    rw [List.nil_append, splitWsGo_all_space ws hws acc]
    rfl
  | cons c cs ih =>
    intro acc
    by_cases hc : isPySpace c = true
    · by_cases hacc : acc = [] <;> simp [splitWsGo, hc, hacc, ih]
    · simp [splitWsGo, hc, ih]

theorem splitWsGo_rstripList (l : List Char) :
    splitWsGo [] (rstripList l) = splitWsGo [] l := by
  have hdecomp : l = rstripList l ++ (l.reverse.takeWhile isPySpace).reverse := by
    conv_lhs => rw [← l.reverse_reverse,
      ← List.takeWhile_append_dropWhile (p := isPySpace) (l := l.reverse)]
    rw [List.reverse_append]
    rfl
  conv_rhs => rw [hdecomp]
  exact (splitWsGo_append_spaces _
    (fun c hc => List.mem_takeWhile_imp (List.mem_reverse.mp hc)) _ _).symm

theorem splitWsGo_dropWhile (l : List Char) :
    splitWsGo [] (l.dropWhile isPySpace) = splitWsGo [] l := by
  induction l with
  | nil => rfl
  | cons c cs ih =>
    rw [List.dropWhile_cons]
    by_cases hc : isPySpace c = true
    · simp [hc, splitWsGo, ih]
    · simp [hc, splitWsGo]

theorem pySplit_pyRstrip (s : String) : pySplit (pyRstrip s) = pySplit s :=
  splitWsGo_rstripList s.toList

theorem pySplit_pyStrip (s : String) : pySplit (pyStrip s) = pySplit s := by
  have h1 : pySplit (pyStrip s) =
      splitWsGo [] (rstripList (s.toList.dropWhile isPySpace)) := rfl
  rw [h1, splitWsGo_rstripList, splitWsGo_dropWhile]
  rfl

theorem rstripList_eq_nil_iff (l : List Char) :
    rstripList l = [] ↔ ∀ c ∈ l, isPySpace c = true := by
  simp [rstripList, List.dropWhile_eq_nil_iff]

theorem pyRstrip_eq_empty_iff (s : String) :
    pyRstrip s = "" ↔ ∀ c ∈ s.toList, isPySpace c = true := by
  constructor
  · intro h
    have hl : rstripList s.toList = [] := congrArg String.data h
    exact (rstripList_eq_nil_iff _).mp hl
  · intro h
    rw [pyRstrip, (rstripList_eq_nil_iff _).mpr h]

theorem pySplit_eq_nil_of_rstrip_empty (s : String) (h : pyRstrip s = "") :
    pySplit s = [] := by
  rw [← pySplit_pyRstrip s, h]
  rfl

theorem pySplit_bullet (s : String) :
    pySplit ("● " ++ s) = "●" :: pySplit s := by
  have htl : ("● " ++ s).toList = '●' :: ' ' :: s.toList := by
    show ("● " ++ s).data = _
    rw [String.data_append]
    rfl
  have h1 : isPySpace '●' = false := by decide
  have h2 : isPySpace ' ' = true := by decide
  rw [pySplit, htl]
  simp [splitWsGo, h1, h2]
  rfl

theorem stripBullet_bullet_cons (ps : List String) :
    stripBullet ("●" :: ps) = ps := by
  simp [stripBullet]

theorem stripBullet_of_head_ne (ps : List String) (h : ps.head? ≠ some "●") :
    stripBullet ps = ps := by
  simp [stripBullet, h]

/-- Claim C8 counterexample: the claim as stated fails when the first of the
five fields is itself the bullet token. The line "● ● a b c d" (a bullet
followed by the five fields "●", "a", "b", "c", "d") parses to a record,
while the same line without its leading bullet token, "● a b c d", is
treated as a bullet followed by only four fields and is skipped. -/
theorem bullet_line_counterexample :
    parseUnitLine "● ● a b c d" = some ("●", "a", "b", "c", "d") ∧
    parseUnitLine "● a b c d" = none ∧
    parseUnitLine "● ● a b c d" ≠ parseUnitLine "● a b c d" := by
  refine ⟨by decide, by decide, by decide⟩

/-- Claim C8 (amended): a live-units line made of the leading failure-bullet
token "●" followed by at least five whitespace-separated fields parses
exactly like the same line without the bullet token, provided the first of
those fields is not itself the bullet token "●". -/
theorem bullet_line_parses_same (rest : String)
    (h5 : 5 ≤ (pySplit rest).length)
    (hb : (pySplit rest).head? ≠ some "●") :
    parseUnitLine ("● " ++ rest) = parseUnitLine rest := by
  have htl : ("● " ++ rest).toList = '●' :: ' ' :: rest.toList := by
    show ("● " ++ rest).data = _
    rw [String.data_append]
    rfl
  have hrne : pyRstrip ("● " ++ rest) ≠ "" := by
    intro h0
    have hall := (pyRstrip_eq_empty_iff _).mp h0
    have hsp := hall '●' (by rw [htl]; exact List.mem_cons_self _ _)
    exact absurd hsp (by decide)
  have hLHS : parseUnitLine ("● " ++ rest) = parseTokens ("●" :: pySplit rest) := by
    simp only [parseUnitLine]
    rw [if_neg hrne, pySplit_pyRstrip, pySplit_bullet]
  have hpt : parseTokens ("●" :: pySplit rest) = parseTokens (pySplit rest) := by
    simp only [parseTokens, stripBullet_bullet_cons, stripBullet_of_head_ne _ hb]
  by_cases hr : pyRstrip rest = ""
  · exfalso
    rw [pySplit_eq_nil_of_rstrip_empty rest hr] at h5
    simp at h5
  · have hRHS : parseUnitLine rest = parseTokens (pySplit rest) := by
      simp only [parseUnitLine]
      rw [if_neg hr, pySplit_pyRstrip]
    rw [hLHS, hpt, hRHS]

theorem bullet_line_parses_same_witness :
    5 ≤ (pySplit "ssh.service loaded failed failed OpenBSD Secure Shell server").length ∧
    (pySplit "ssh.service loaded failed failed OpenBSD Secure Shell server").head? ≠
      some "●" ∧
    parseUnitLine ("● " ++ "ssh.service loaded failed failed OpenBSD Secure Shell server") =
      parseUnitLine "ssh.service loaded failed failed OpenBSD Secure Shell server" :=
  ⟨by decide, by decide,
    bullet_line_parses_same "ssh.service loaded failed failed OpenBSD Secure Shell server"
      (by decide) (by decide)⟩

/-- Claim C9: a live-units line with fewer than five whitespace tokens after
optional bullet removal (blank lines included) is skipped silently: it
parses to nothing and leaves the collected runtime dict unchanged, so it
contributes no record to the merged result. -/
theorem live_line_skipped (line : String)
    (h : (stripBullet (pySplit line)).length < 5) :
    parseUnitLine line = none ∧
      ∀ (emap : List (String × String)) (m : List (String × ServiceRecord)),
        runtimeStep emap m line = m := by
  have hnone : parseUnitLine line = none := by
    by_cases hl : pyRstrip line = ""
    · simp [parseUnitLine, hl]
    · simp only [parseUnitLine]
      rw [if_neg hl, pySplit_pyRstrip]
      rcases hsb : stripBullet (pySplit line) with _ | ⟨u, _ | ⟨lo, _ | ⟨a, _ | ⟨su, _ | ⟨d, ds⟩⟩⟩⟩⟩
      · simp [parseTokens, hsb]
      · simp [parseTokens, hsb]
      · simp [parseTokens, hsb]
      · simp [parseTokens, hsb]
      · simp [parseTokens, hsb]
      · exfalso
        rw [hsb] at h
        simp only [List.length_cons] at h
        omega
  refine ⟨hnone, fun emap m => ?_⟩
  simp [runtimeStep, hnone]

theorem live_line_skipped_witness :
    (stripBullet (pySplit "● short line")).length < 5 ∧
    parseUnitLine "● short line" = none ∧
    runtimeStep [("a.service", "enabled")] [] "● short line" = [] :=
  ⟨by decide, (live_line_skipped "● short line" (by decide)).1,
    (live_line_skipped "● short line" (by decide)).2 [("a.service", "enabled")] []⟩

theorem dictMem_iff {α : Type} (m : List (String × α)) (k : String) :
    dictMem m k = true ↔ k ∈ dictKeys m := by
  simp [dictMem, dictKeys, List.any_eq_true]

theorem dictKeys_insert {α : Type} (m : List (String × α)) (k : String) (v : α) :
    dictKeys (dictInsert m k v) =
      if dictMem m k then dictKeys m else dictKeys m ++ [k] := by
  by_cases h : dictMem m k = true
  · simp only [dictInsert, h, if_pos, dictKeys, List.map_map]
    apply List.map_congr_left
    intro p _
    by_cases hp : p.1 = k <;> simp [hp]
  · simp [dictInsert, h, dictKeys]

theorem mem_dictKeys_insert {α : Type} (m : List (String × α)) (k : String)
    (v : α) (a : String) :
    a ∈ dictKeys (dictInsert m k v) ↔ a ∈ dictKeys m ∨ a = k := by
  rw [dictKeys_insert]
  by_cases h : dictMem m k = true
  · rw [if_pos h]
    constructor
    · exact Or.inl
    · rintro (h1 | rfl)
      · exact h1
      · exact (dictMem_iff m a).mp h
  · rw [if_neg h]
    simp

theorem nodup_dictKeys_insert {α : Type} (m : List (String × α)) (k : String)
    (v : α) (h : (dictKeys m).Nodup) :
    (dictKeys (dictInsert m k v)).Nodup := by
  rw [dictKeys_insert]
  by_cases hm : dictMem m k = true
  · rw [if_pos hm]; exact h
  · rw [if_neg hm, List.nodup_append]
    refine ⟨h, List.nodup_singleton k, ?_⟩
    intro a ha hb
    rw [List.mem_singleton] at hb
    subst hb
    exact hm ((dictMem_iff m a).mpr ha)

theorem dictGet_append_single {α : Type} (m : List (String × α)) (k : String)
    (v : α) (j : String) (hm : dictMem m k = false) :
    dictGet (m ++ [(k, v)]) j = if j = k then some v else dictGet m j := by
  induction m with
  | nil =>
    by_cases hj : j = k
    · subst hj
      simp [dictGet, List.find?]
    · have hkj : (k == j) = false := by simpa using fun h => hj h.symm
      simp [dictGet, List.find?, hj, hkj]
  | cons a t ih =>
    have ha : (a.1 == k) = false ∧ dictMem t k = false := by
      simpa [dictMem, List.any_cons] using hm
    by_cases hja : (a.1 == j) = true
    · have haj : a.1 = j := by simpa using hja
      have hjk : j ≠ k := by
        intro hjk
        rw [hjk] at haj
        simp [haj] at ha
      simp [dictGet, List.find?, hja, hjk]
    · have ht := ih ha.2
      simp only [List.cons_append, dictGet, List.find?, hja] at ht ⊢
      exact ht

theorem dictGet_map_subst_ne {α : Type} (m : List (String × α)) (k : String)
    (v : α) (j : String) (hj : j ≠ k) :
    dictGet (m.map (fun p => if p.1 = k then (k, v) else p)) j = dictGet m j := by
  induction m with
  | nil => rfl
  | cons a t ih =>
    by_cases hak : a.1 = k
    · have hkj : (k == j) = false := by simpa using fun h => hj h.symm
      have haj : (a.1 == j) = false := by
        rw [hak]
        simpa using fun h => hj h.symm
      simp only [List.map_cons, hak, if_pos, dictGet, List.find?, hkj, haj] at ih ⊢
      exact ih
    · by_cases haj : (a.1 == j) = true
      · simp [dictGet, List.find?, hak, haj]
      · simp only [List.map_cons, hak, if_neg, not_false_iff, dictGet, List.find?,
          haj] at ih ⊢
        exact ih

theorem dictGet_map_subst_self {α : Type} (m : List (String × α)) (k : String)
    (v : α) (hk : k ∈ dictKeys m) :
    dictGet (m.map (fun p => if p.1 = k then (k, v) else p)) k = some v := by
  induction m with
  | nil => simp [dictKeys] at hk
  | cons a t ih =>
    by_cases hak : a.1 = k
    · simp [dictGet, List.find?, hak]
    · have hkt : k ∈ dictKeys t := by
        rw [dictKeys, List.map_cons, List.mem_cons] at hk
        rcases hk with h | h
        · exact absurd h.symm hak
        · exact h
      have haj : (a.1 == k) = false := by simpa using hak
      simp only [List.map_cons, hak, if_neg, not_false_iff, dictGet, List.find?,
        haj] at ih ⊢
      exact ih hkt

theorem dictGet_insert {α : Type} (m : List (String × α)) (k : String) (v : α)
    (j : String) :
    dictGet (dictInsert m k v) j = if j = k then some v else dictGet m j := by
  by_cases hm : dictMem m k = true
  · rw [dictInsert, if_pos hm]
    by_cases hj : j = k
    · subst hj
      rw [if_pos rfl]
      exact dictGet_map_subst_self m j v ((dictMem_iff m j).mp hm)
    · rw [if_neg hj]
      exact dictGet_map_subst_ne m k v j hj
  · rw [dictInsert, if_neg hm]
    exact dictGet_append_single m k v j (by simpa using hm)

theorem dictInsert_forall {α : Type} {P : String × α → Prop}
    (m : List (String × α)) (k : String) (v : α)
    (hm : ∀ p ∈ m, P p) (hkv : P (k, v)) :
    ∀ p ∈ dictInsert m k v, P p := by
  intro p hp
  rw [dictInsert] at hp
  split at hp
  · obtain ⟨q, hq, rfl⟩ := List.mem_map.mp hp
    by_cases hqk : q.1 = k
    · simpa [hqk] using hkv
    · simpa [hqk] using hm q hq
  · rcases List.mem_append.mp hp with h | h
    · exact hm p h
    · rw [List.mem_singleton] at h
      subst h
      exact hkv

theorem dictGet_mem {α : Type} (m : List (String × α)) (k : String) (v : α)
    (h : dictGet m k = some v) : (k, v) ∈ m := by
  rw [dictGet] at h
  obtain ⟨p, hfind, hv⟩ := Option.map_eq_some'.mp h
  have hp1 : p.1 = k := by simpa using List.find?_some hfind
  have hpm := List.mem_of_find?_eq_some hfind
  obtain ⟨p1, p2⟩ := p
  simp only at hp1 hv
  rw [← hp1, ← hv]
  exact hpm

theorem filter_key_of_nodup {α : Type} (m : List (String × α)) (u : String)
    (s : α) (hnd : (dictKeys m).Nodup) (hm : (u, s) ∈ m) :
    m.filter (fun p => p.1 == u) = [(u, s)] := by
  induction m with
  | nil => cases hm
  | cons a t ih =>
    have hnd2 : a.1 ∉ dictKeys t ∧ (dictKeys t).Nodup := by
      simpa [dictKeys] using hnd
    rcases List.mem_cons.mp hm with heq | hmt
    · rw [← heq]
      rw [← heq] at hnd2
      have ht : t.filter (fun p => p.1 == u) = [] := by
        rw [List.filter_eq_nil_iff]
        intro p hp hpu
        exact hnd2.1 (by
          simp only [dictKeys, List.mem_map]
          exact ⟨p, hp, by simpa using hpu⟩)
      simp [List.filter_cons, ht]
    · have hu : u ∈ dictKeys t := by
        simp only [dictKeys, List.mem_map]
        exact ⟨(u, s), hmt, rfl⟩
      have hau : (a.1 == u) = false := by
        simp only [beq_eq_false_iff_ne, ne_eq]
        intro h
        exact hnd2.1 (h ▸ hu)
      simp only [List.filter_cons, hau, Bool.false_eq_true, if_neg,
        not_false_iff]
      exact ih hnd2.2 hmt

theorem filter_of_map {β γ : Type} (f : β → γ) (p : γ → Bool) (l : List β) :
    (l.map f).filter p = (l.filter (fun a => p (f a))).map f := by
  induction l with
  | nil => rfl
  | cons a t ih =>
    by_cases h : p (f a) = true <;> simp [List.filter_cons, h, ih]

theorem foldl_inv {β γ : Type} (f : γ → β → γ) (P : γ → Prop)
    (hf : ∀ a b, P a → P (f a b)) :
    ∀ (l : List β) (a : γ), P a → P (l.foldl f a) := by
  intro l
  induction l with
  | nil => intro a ha; exact ha
  | cons b t ih => intro a ha; exact ih _ (hf a b ha)

theorem buildEnabledMap_keys_nodup (out : String) :
    (dictKeys (buildEnabledMap out)).Nodup := by
  apply foldl_inv enabStep (fun m => (dictKeys m).Nodup)
  · intro m line h
    by_cases hl : pyStrip line = ""
    · simpa [enabStep, hl] using h
    · rcases hp : pySplit (pyStrip line) with _ | ⟨u, _ | ⟨s, rest⟩⟩ <;>
        simp only [enabStep, hl, if_neg, not_false_iff, hp]
      · exact h
      · exact h
      · exact nodup_dictKeys_insert m u s h
  · simp [dictKeys]

theorem buildRuntimeServices_inv (emap : List (String × String)) (out : String) :
    (dictKeys (buildRuntimeServices emap out)).Nodup ∧
      ∀ p ∈ buildRuntimeServices emap out,
        p.2.unit = p.1 ∧ p.2.enabled = (dictGet emap p.1).getD "?" := by
  apply foldl_inv (runtimeStep emap)
    (fun m => (dictKeys m).Nodup ∧
      ∀ p ∈ m, p.2.unit = p.1 ∧ p.2.enabled = (dictGet emap p.1).getD "?")
  · rintro m line ⟨h1, h2⟩
    rcases hp : parseUnitLine line with _ | ⟨u, lo, a, su, d⟩ <;>
      simp only [runtimeStep, hp]
    · exact ⟨h1, h2⟩
    · refine ⟨nodup_dictKeys_insert m u _ h1, ?_⟩
      exact dictInsert_forall m u _ h2 ⟨rfl, rfl⟩
  · exact ⟨by simp [dictKeys], by intro p hp; cases hp⟩

theorem keys_foldl_runtime (emap : List (String × String)) (lines : List String) :
    ∀ (m : List (String × ServiceRecord)) (a : String),
      a ∈ dictKeys (lines.foldl (runtimeStep emap) m) ↔
        a ∈ dictKeys m ∨
          a ∈ lines.filterMap (fun l => (parseUnitLine l).map (fun t => t.1)) := by
  induction lines with
  | nil => intro m a; simp
  | cons l ls ih =>
    intro m a
    rw [List.foldl_cons, ih]
    rcases hp : parseUnitLine l with _ | ⟨u, lo, aa, su, d⟩
    · simp [runtimeStep, hp, List.filterMap_cons]
    · simp only [runtimeStep, hp, List.filterMap_cons, Option.map_some',
        mem_dictKeys_insert, List.mem_cons]
      tauto

theorem mem_keys_buildRuntime (emap : List (String × String)) (out : String)
    (a : String) :
    a ∈ dictKeys (buildRuntimeServices emap out) ↔ a ∈ liveUnits out := by
  rw [buildRuntimeServices, keys_foldl_runtime]
  simp [dictKeys, liveUnits]

theorem mergeServices_map_unit (emap : List (String × String)) (out : String) :
    (mergeServices emap out).map (fun r => r.unit) =
      dictKeys (buildRuntimeServices emap out) ++
        (emap.filter
          (fun p => !dictMem (buildRuntimeServices emap out) p.1)).map
          (fun p => p.1) := by
  simp only [mergeServices, List.map_append, List.map_map]
  congr 1
  exact List.map_congr_left
    (fun p hp => ((buildRuntimeServices_inv emap out).2 p hp).1)

theorem mergeServices_units_nodup (emap : List (String × String)) (out : String)
    (hnd : (dictKeys emap).Nodup) :
    ((mergeServices emap out).map (fun r => r.unit)).Nodup := by
  rw [mergeServices_map_unit, List.nodup_append]
  refine ⟨(buildRuntimeServices_inv emap out).1, ?_, ?_⟩
  · have hs :
        ((emap.filter
          (fun p => !dictMem (buildRuntimeServices emap out) p.1)).map
            (fun p => p.1)).Sublist (dictKeys emap) :=
      List.Sublist.map _ (List.filter_sublist emap)
    exact hs.nodup hnd
  · intro a ha hb
    obtain ⟨p, hp, rfl⟩ := List.mem_map.mp hb
    obtain ⟨hpe, hq⟩ := List.mem_filter.mp hp
    rw [Bool.not_eq_true'] at hq
    rw [← dictMem_iff] at ha
    rw [ha] at hq
    cases hq

theorem get_services_list_eq_ok (exec : List String → ProcOutcome)
    (c1 : Int) (o1 e1 o2 e2 : String)
    (h1 : exec listUnitFilesCmd = ProcOutcome.ok c1 o1 e1)
    (h2 : exec listUnitsCmd = ProcOutcome.ok 0 o2 e2) :
    get_services_list exec =
      Except.ok (mergeServices (if c1 = 0 then buildEnabledMap o1 else []) o2) := by
  simp [get_services_list, run_command, fullCmd, h1, h2]

theorem get_services_list_eq_error (exec : List String → ProcOutcome)
    (c2 : Int) (o2 e2 : String)
    (h2 : exec listUnitsCmd = ProcOutcome.ok c2 o2 e2) (hc : c2 ≠ 0) :
    get_services_list exec = Except.error ("Failed to list services:" ++ e2) := by
  simp [get_services_list, run_command, fullCmd, h2, hc]

/-- Claim C10: the enablement mapping uses only the first two whitespace
tokens of each line: blank or short lines are skipped without effect, any
further tokens (such as the vendor-preset column) are ignored, and a
repeated unit-file name keeps the state of its last occurrence. -/
theorem enab_line_parsing :
    (∀ (m : List (String × String)) (line : String),
        (pySplit line).length < 2 → enabStep m line = m) ∧
    (∀ (m : List (String × String)) (line u s : String) (rest : List String),
        pySplit line = u :: s :: rest → enabStep m line = dictInsert m u s) ∧
    (∀ (m : List (String × String)) (u s : String),
        dictGet (dictInsert m u s) u = some s) ∧
    (∀ (m : List (String × String)) (u s k : String), k ≠ u →
        dictGet (dictInsert m u s) k = dictGet m k) ∧
    dictGet (buildEnabledMap "a.service enabled enabled\na.service disabled enabled")
        "a.service" = some "disabled" := by
  refine ⟨?_, ?_, ?_, ?_, by decide⟩
  · intro m line h
    by_cases hl : pyStrip line = ""
    · simp [enabStep, hl]
    · rcases hs : pySplit line with _ | ⟨u, _ | ⟨s, rest⟩⟩
      · simp [enabStep, hl, pySplit_pyStrip, hs]
      · simp [enabStep, hl, pySplit_pyStrip, hs]
      · rw [hs] at h
        simp at h
        omega
  · intro m line u s rest h
    have hl : pyStrip line ≠ "" := by
      intro hl
      have h0 : pySplit line = [] := by
        rw [← pySplit_pyStrip, hl]
        rfl
      rw [h] at h0
      cases h0
    simp [enabStep, hl, pySplit_pyStrip, h]
  · intro m u s
    simp [dictGet_insert]
  · intro m u s k hk
    rw [dictGet_insert, if_neg hk]

theorem enab_line_parsing_witness :
    enabStep [] "   " = [] ∧
    enabStep [] "cron.service enabled enabled" =
      dictInsert [] "cron.service" "enabled" ∧
    dictGet (dictInsert [("x", "y")] "u" "s") "x" = dictGet [("x", "y")] "x" :=
  ⟨enab_line_parsing.1 [] "   " (by decide),
    enab_line_parsing.2.1 [] "cron.service enabled enabled" "cron.service"
      "enabled" ["enabled"] (by decide),
    enab_line_parsing.2.2.2.1 [("x", "y")] "u" "s" "x" (by decide)⟩

/-- Claim C1: when the mandatory live-units query succeeds, every unit named
in the live-units output appears exactly once in the returned list, the
`unit` field is unique across the whole returned set, and every returned
record whose unit is in the live-units output carries the enablement state
from the mapping built from the list-unit-files output when present, else
"?". -/
theorem get_services_list_live_units (exec : List String → ProcOutcome)
    (c1 : Int) (o1 e1 o2 e2 : String)
    (h1 : exec listUnitFilesCmd = ProcOutcome.ok c1 o1 e1)
    (h2 : exec listUnitsCmd = ProcOutcome.ok 0 o2 e2) :
    ∃ svcs, get_services_list exec = Except.ok svcs ∧
      (svcs.map (fun r => r.unit)).Nodup ∧
      (∀ u ∈ liveUnits o2, (svcs.map (fun r => r.unit)).count u = 1) ∧
      (∀ r ∈ svcs, r.unit ∈ liveUnits o2 →
        r.enabled =
          (dictGet (if c1 = 0 then buildEnabledMap o1 else []) r.unit).getD "?") := by
  have hnd : (dictKeys (if c1 = 0 then buildEnabledMap o1 else [])).Nodup := by
    by_cases hc : c1 = 0
    · rw [if_pos hc]
      exact buildEnabledMap_keys_nodup o1
    · rw [if_neg hc]
      simp [dictKeys]
  refine ⟨mergeServices (if c1 = 0 then buildEnabledMap o1 else []) o2,
    get_services_list_eq_ok exec c1 o1 e1 o2 e2 h1 h2,
    mergeServices_units_nodup _ o2 hnd, ?_, ?_⟩
  · intro u hu
    apply List.count_eq_one_of_mem (mergeServices_units_nodup _ o2 hnd)
    rw [mergeServices_map_unit]
    exact List.mem_append_left _ ((mem_keys_buildRuntime _ o2 u).mpr hu)
  · intro r hr hru
    simp only [mergeServices] at hr
    rcases List.mem_append.mp hr with h | h
    · obtain ⟨p, hp, rfl⟩ := List.mem_map.mp h
      obtain ⟨h3, h4⟩ := (buildRuntimeServices_inv _ o2).2 p hp
      rw [h4, h3]
    · exfalso
      obtain ⟨p, hp, rfl⟩ := List.mem_map.mp h
      obtain ⟨hpe, hq⟩ := List.mem_filter.mp hp
      rw [Bool.not_eq_true'] at hq
      simp only [placeholderRec] at hru
      have hmem :=
        (mem_keys_buildRuntime (if c1 = 0 then buildEnabledMap o1 else []) o2
          p.1).mpr hru
      rw [← dictMem_iff] at hmem
      rw [hq] at hmem
      cases hmem

theorem get_services_list_live_units_witness :
    ∃ svcs,
      get_services_list
          (fun c =>
            if c = listUnitsCmd then
              ProcOutcome.ok 0
                "ssh.service loaded active running OpenBSD Secure Shell server" ""
            else ProcOutcome.ok 0 "ssh.service enabled enabled" "") =
        Except.ok svcs ∧
      (svcs.map (fun r => r.unit)).Nodup ∧
      (∀ u ∈ liveUnits
          "ssh.service loaded active running OpenBSD Secure Shell server",
        (svcs.map (fun r => r.unit)).count u = 1) ∧
      (∀ r ∈ svcs,
        r.unit ∈ liveUnits
            "ssh.service loaded active running OpenBSD Secure Shell server" →
        r.enabled =
          (dictGet
            (if (0 : Int) = 0 then buildEnabledMap "ssh.service enabled enabled"
             else []) r.unit).getD "?") :=
  get_services_list_live_units _ 0 "ssh.service enabled enabled" ""
    "ssh.service loaded active running OpenBSD Secure Shell server" ""
    (by decide) (by decide)

/-- Claim C2: a unit present in the enablement mapping but absent from the
live-units output yields exactly one record in the merged result, the
synthesized placeholder with load "n/a", active "inactive", sub "dead", the
literal description "Not loaded (available to enable/start)", and that
unit's enablement state. -/
theorem get_services_list_placeholder (exec : List String → ProcOutcome)
    (c1 : Int) (o1 e1 o2 e2 u s : String)
    (h1 : exec listUnitFilesCmd = ProcOutcome.ok c1 o1 e1)
    (h2 : exec listUnitsCmd = ProcOutcome.ok 0 o2 e2)
    (hu : dictGet (if c1 = 0 then buildEnabledMap o1 else []) u = some s)
    (hlive : u ∉ liveUnits o2) :
    ∃ svcs, get_services_list exec = Except.ok svcs ∧
      svcs.filter (fun r => r.unit == u) =
        [{ unit := u, load := "n/a", active := "inactive", sub := "dead",
           description := "Not loaded (available to enable/start)",
           enabled := s }] := by
  have hnd : (dictKeys (if c1 = 0 then buildEnabledMap o1 else [])).Nodup := by
    by_cases hc : c1 = 0
    · rw [if_pos hc]
      exact buildEnabledMap_keys_nodup o1
    · rw [if_neg hc]
      simp [dictKeys]
  refine ⟨mergeServices (if c1 = 0 then buildEnabledMap o1 else []) o2,
    get_services_list_eq_ok exec c1 o1 e1 o2 e2 h1 h2, ?_⟩
  have hrtmem :
      dictMem (buildRuntimeServices (if c1 = 0 then buildEnabledMap o1 else []) o2)
        u = false := by
    cases hmem :
      dictMem (buildRuntimeServices (if c1 = 0 then buildEnabledMap o1 else []) o2) u
    · rfl
    · exact absurd
        ((mem_keys_buildRuntime _ o2 u).mp ((dictMem_iff _ u).mp hmem)) hlive
  simp only [mergeServices, List.filter_append]
  have hA :
      (((buildRuntimeServices (if c1 = 0 then buildEnabledMap o1 else []) o2).map
        (fun p => p.2)).filter (fun r => r.unit == u)) = [] := by
    rw [List.filter_eq_nil_iff]
    intro r hrm hbeq
    obtain ⟨p, hp, rfl⟩ := List.mem_map.mp hrm
    have h3 := ((buildRuntimeServices_inv _ o2).2 p hp).1
    have hpu : p.1 = u := by
      rw [← h3]
      simpa using hbeq
    apply hlive
    apply (mem_keys_buildRuntime _ o2 u).mp
    rw [← hpu]
    simp only [dictKeys, List.mem_map]
    exact ⟨p, hp, rfl⟩
  have hndf :
      (dictKeys
        (((if c1 = 0 then buildEnabledMap o1 else []).filter
          (fun p =>
            !dictMem
              (buildRuntimeServices (if c1 = 0 then buildEnabledMap o1 else []) o2)
              p.1)))).Nodup := by
    have hs := List.Sublist.map (fun (p : String × String) => p.1)
      (List.filter_sublist (p :=
        (fun p =>
          !dictMem
            (buildRuntimeServices (if c1 = 0 then buildEnabledMap o1 else []) o2)
            p.1)) (if c1 = 0 then buildEnabledMap o1 else []))
    exact hs.nodup hnd
  have hmemf : (u, s) ∈
      ((if c1 = 0 then buildEnabledMap o1 else []).filter
        (fun p =>
          !dictMem
            (buildRuntimeServices (if c1 = 0 then buildEnabledMap o1 else []) o2)
            p.1)) := by
    refine List.mem_filter.mpr ⟨dictGet_mem _ u s hu, ?_⟩
    rw [hrtmem]
    rfl
  have hflt := filter_key_of_nodup _ u s hndf hmemf
  rw [hA, filter_of_map]
  have hcongr :
      (fun (a : String × String) => (placeholderRec a).unit == u) =
        (fun (a : String × String) => a.1 == u) := rfl
  rw [hcongr, hflt]
  rfl

theorem get_services_list_placeholder_witness :
    ∃ svcs,
      get_services_list
          (fun c =>
            if c = listUnitsCmd then ProcOutcome.ok 0 "" ""
            else ProcOutcome.ok 0 "foo.service disabled enabled" "") =
        Except.ok svcs ∧
      svcs.filter (fun r => r.unit == "foo.service") =
        [{ unit := "foo.service", load := "n/a", active := "inactive",
           sub := "dead",
           description := "Not loaded (available to enable/start)",
           enabled := "disabled" }] :=
  get_services_list_placeholder _ 0 "foo.service disabled enabled" "" "" ""
    "foo.service" "disabled" (by decide) (by decide) (by decide) (by decide)

/-- Claim C7: a non-zero exit of the optional enablement listing is
non-fatal — collection proceeds with an empty enablement mapping and every
record's `enabled` field is "?" — while a non-zero exit of the mandatory
live-units listing makes the whole collection fail with an error carrying
the captured stderr text verbatim and yields no records. -/
theorem get_services_list_failures (exec : List String → ProcOutcome)
    (c1 : Int) (o1 e1 : String) (c2 : Int) (o2 e2 : String)
    (h1 : exec listUnitFilesCmd = ProcOutcome.ok c1 o1 e1)
    (h2 : exec listUnitsCmd = ProcOutcome.ok c2 o2 e2) :
    (c1 ≠ 0 → c2 = 0 →
      ∃ svcs, get_services_list exec = Except.ok svcs ∧
        ∀ r ∈ svcs, r.enabled = "?") ∧
    (c2 ≠ 0 →
      get_services_list exec = Except.error ("Failed to list services:" ++ e2)) := by
  constructor
  · intro hc1 hc2
    subst hc2
    refine ⟨mergeServices [] o2, ?_, ?_⟩
    · have h := get_services_list_eq_ok exec c1 o1 e1 o2 e2 h1 h2
      rwa [if_neg hc1] at h
    · intro r hr
      simp only [mergeServices, List.filter_nil, List.map_nil,
        List.append_nil] at hr
      obtain ⟨p, hp, rfl⟩ := List.mem_map.mp hr
      have h4 := ((buildRuntimeServices_inv [] o2).2 p hp).2
      rw [h4]
      rfl
  · intro hc2
    exact get_services_list_eq_error exec c2 o2 e2 h2 hc2

theorem get_services_list_failures_witness :
    (∃ svcs,
      get_services_list
          (fun c =>
            if c = listUnitFilesCmd then ProcOutcome.ok 1 "" "unit files failed"
            else ProcOutcome.ok 0 "cron.service loaded active running Cron daemon" "") =
        Except.ok svcs ∧ ∀ r ∈ svcs, r.enabled = "?") ∧
    get_services_list
        (fun c =>
          if c = listUnitsCmd then ProcOutcome.ok 7 "" "boom"
          else ProcOutcome.ok 0 "" "") =
      Except.error ("Failed to list services:" ++ "boom") :=
  ⟨(get_services_list_failures _ 1 "" "unit files failed" 0
      "cron.service loaded active running Cron daemon" ""
      (by decide) (by decide)).1 (by decide) rfl,
    (get_services_list_failures _ 0 "" "" 7 "" "boom"
      (by decide) (by decide)).2 (by decide)⟩

end SystemdDash
